import Mathlib

/-!
Verification of the worldsim streaming server (`src/scripts/server.py`)
against its natural-language specification.

The Python code is shallowly embedded: floats become rationals, Python
dicts become association lists (compared by lookup, which is Python dict
equality), the asyncio handler becomes an explicit state-passing function
over the list of successfully read request headers, and exceptions become
`Except` values.
-/

namespace WorldSim

/-! ### Configuration constants (server.py, module top) -/

def CHUNK_SIZE : Nat := 128

def MAX_RETRIES : Nat := 3

def RETRY_DELAY : ℚ := 1

def MAX_CONCURRENT_CLIENTS : Nat := 16

def REQUEST_HEADER_SIZE : Nat := 10

/-! ### Grids -/

/-- A terrain grid: a list of rows of (rational-modelled) float elevations. -/
abbrev Grid := List (List ℚ)

/-- Python `g[y][x]` on an in-range index, modelled with a default for the
out-of-range case (the handler only indexes in range on native grids). -/
def cell (g : Grid) (y x : Nat) : ℚ := (g.getD y []).getD x 0

/-- Python `range(0, n, factor)`: the stride indices `0, factor, 2*factor, …`
below `n`; its length is `⌈n / factor⌉`. -/
def strideIdx (n factor : Nat) : List Nat :=
  (List.range ((n + factor - 1) / factor)).map (· * factor)

/-- Python `max(int(1/lod), 1)` (server.py line 80).  For `lod ≠ 0`,
`int` truncation toward zero agrees with `max ⌊·⌋ 1` because the result is
clamped to at least 1. -/
def strideFactor (lod : ℚ) : Nat := (max ⌊1 / lod⌋ 1).toNat

/-- Exceptions that can escape a request iteration of `handle_client`.
`zeroDivision` is Python's `ZeroDivisionError` raised by `1/lod` when
`lod = 0`; `indexError` is Python's `IndexError` raised by the sampling
comprehension when an index falls past the end of a list; `invalidRequest`
is the spec's `InvalidRequest` taxonomy entry, which the code never
raises. -/
inductive HandlerErr where
  | zeroDivision
  | indexError
  | invalidRequest
deriving DecidableEq

/-- The LOD sampler (server.py lines 79–82):
`if lod < 1.0: factor = max(int(1/lod),1); new_data = [[new_data[y*factor][x*factor] for x in range(0, CHUNK_SIZE, factor)] for y in range(0, CHUNK_SIZE, factor)]`.
Python evaluates `1/lod` inside the branch and raises `ZeroDivisionError`
when `lod = 0`.  Note that `y` and `x` already run over the stride
multiples `range(0, CHUNK_SIZE, factor)`, and the comprehension multiplies
by `factor` again: the accessed cell is `g[y*factor][x*factor]` (a double
stride), which raises `IndexError` as soon as any accessed row or column
index falls outside the grid; the guard below is true exactly when every
access of the comprehension is in range. -/
def lodSample (g : Grid) (lod : ℚ) : Except HandlerErr Grid :=
  if lod < 1 then
    if lod = 0 then .error .zeroDivision
    else
      let factor := strideFactor lod
      if (strideIdx CHUNK_SIZE factor).all (fun y =>
            decide (y * factor < g.length) &&
            (strideIdx CHUNK_SIZE factor).all fun x =>
              decide (x * factor < (g.getD (y * factor) []).length)) then
        .ok ((strideIdx CHUNK_SIZE factor).map fun y =>
          (strideIdx CHUNK_SIZE factor).map fun x => cell g (y * factor) (x * factor))
      else .error .indexError
  else .ok g

/-! ### Diff engine on keyed mappings

Python dicts are modelled as association lists with pairwise distinct keys;
dict equality is lookup extensionality. -/

section DiffEngine

variable {K V W : Type} [DecidableEq K]

/-- Python dict lookup `m.get(k)` on an association list (first match). -/
def getVal : List (K × V) → K → Option V
  | [], _ => none
  | e :: rest, k => if e.1 = k then some e.2 else getVal rest k

@[simp] lemma getVal_nil (k : K) : getVal ([] : List (K × V)) k = none := rfl

@[simp] lemma getVal_cons (e : K × V) (rest : List (K × V)) (k : K) :
    getVal (e :: rest) k = if e.1 = k then some e.2 else getVal rest k := rfl

/-- The dict branch of `compute_diff` (server.py lines 28–35): an entry
`k ↦ some v` for every key of `new` that is absent from `old` or maps to a
different value, and `k ↦ none` for every key of `old` absent from `new`.
Python's `None` deletion sentinel is the out-of-band marker `Option.none`,
distinct from every legitimate value of type `V`. -/
def computeDiffMap [DecidableEq V] (old new : List (K × V)) : List (K × Option V) :=
  ((new.filter fun kv => decide (getVal old kv.1 ≠ some kv.2)).map fun kv => (kv.1, some kv.2))
    ++ ((old.filter fun kv => decide (getVal new kv.1 = none)).map
        fun kv => (kv.1, (none : Option V)))

/-- Python dict assignment `m[k] = v`: overwrite the binding in place when
the key is present, append otherwise. -/
def setKey (m : List (K × V)) (k : K) (v : V) : List (K × V) :=
  if (getVal m k).isSome then m.map fun e => if e.1 = k then (k, v) else e
  else m ++ [(k, v)]

/-- Python `del m[k]` (on a dict the key occurs at most once). -/
def delKey : List (K × V) → K → List (K × V)
  | [], _ => []
  | e :: rest, k => if e.1 = k then delKey rest k else e :: delKey rest k

/-- Modelled from the spec: `apply_diff` for mappings is code of this
repository that is absent from `src/` (the tests import it from the server
module).  Spec §4.2: "start from a copy of `old`; for each `key -> v` in
delta, delete `key` if `v` is the deletion-sentinel, else set
`old[key] = v`". -/
def applyDiffMap (old : List (K × V)) (delta : List (K × Option V)) : List (K × V) :=
  delta.foldl (fun m kv =>
    match kv.2 with
    | none => delKey m kv.1
    | some v => setKey m kv.1 v) old

lemma getVal_eq_none_iff {m : List (K × V)} {k : K} :
    getVal m k = none ↔ k ∉ m.map Prod.fst := by
  induction m with
  | nil => simp
  | cons e rest ih =>
    rcases e with ⟨k₀, v₀⟩
    by_cases he : k₀ = k
    · subst he
      simp
    · have h1 : ¬ k = k₀ := fun hc => he hc.symm
      simp [he, h1, ih]

lemma getVal_append (a b : List (K × V)) (k : K) :
    getVal (a ++ b) k = (getVal a k).or (getVal b k) := by
  induction a with
  | nil => simp
  | cons e rest ih =>
    by_cases he : e.1 = k <;> simp [he, ih]

lemma getVal_mapSet (m : List (K × V)) (k : K) (v : V) :
    getVal (m.map fun e => if e.1 = k then (k, v) else e) k =
      (getVal m k).map fun _ => v := by
  induction m with
  | nil => simp
  | cons e rest ih =>
    by_cases he : e.1 = k <;> simp [he, ih]

lemma getVal_mapSet_ne (m : List (K × V)) {k k' : K} (v : V) (h : k' ≠ k) :
    getVal (m.map fun e => if e.1 = k then (k, v) else e) k' = getVal m k' := by
  induction m with
  | nil => rfl
  | cons e rest ih =>
    rcases e with ⟨k₀, v₀⟩
    rw [List.map_cons, getVal_cons, getVal_cons, ih]
    by_cases he : k₀ = k
    · rw [if_pos (he : (k₀, v₀).1 = k),
        if_neg (fun hc => h hc.symm : ¬ (k, v).1 = k'),
        if_neg (fun hc => h (hc ▸ he) : ¬ (k₀, v₀).1 = k')]
    · rw [if_neg (he : ¬ (k₀, v₀).1 = k)]

lemma getVal_setKey_self (m : List (K × V)) (k : K) (v : V) :
    getVal (setKey m k v) k = some v := by
  rw [setKey]
  by_cases h : (getVal m k).isSome
  · rw [if_pos h, getVal_mapSet]
    obtain ⟨w, hw⟩ := Option.isSome_iff_exists.mp h
    rw [hw, Option.map_some']
  · rw [if_neg h, getVal_append]
    rw [Option.not_isSome_iff_eq_none] at h
    simp [h]

lemma getVal_setKey_ne (m : List (K × V)) {k k' : K} (v : V) (h : k' ≠ k) :
    getVal (setKey m k v) k' = getVal m k' := by
  rw [setKey]
  by_cases hs : (getVal m k).isSome
  · rw [if_pos hs, getVal_mapSet_ne _ _ h]
  · rw [if_neg hs, getVal_append]
    simp [Ne.symm h]

lemma getVal_delKey_self (m : List (K × V)) (k : K) :
    getVal (delKey m k) k = none := by
  induction m with
  | nil => rfl
  | cons e rest ih =>
    rcases e with ⟨k₀, v₀⟩
    rw [delKey]
    by_cases he : k₀ = k
    · rw [if_pos (he : (k₀, v₀).1 = k)]
      exact ih
    · rw [if_neg (he : ¬ (k₀, v₀).1 = k), getVal_cons, if_neg (he : ¬ (k₀, v₀).1 = k)]
      exact ih

lemma getVal_delKey_ne (m : List (K × V)) {k k' : K} (h : k' ≠ k) :
    getVal (delKey m k) k' = getVal m k' := by
  induction m with
  | nil => rfl
  | cons e rest ih =>
    rcases e with ⟨k₀, v₀⟩
    rw [delKey]
    by_cases he : k₀ = k
    · rw [if_pos (he : (k₀, v₀).1 = k), ih, getVal_cons,
        if_neg (fun hc => h (hc ▸ he) : ¬ (k₀, v₀).1 = k')]
    · rw [if_neg (he : ¬ (k₀, v₀).1 = k), getVal_cons, getVal_cons, ih]

@[simp] lemma applyDiffMap_nil (old : List (K × V)) : applyDiffMap old [] = old := rfl

lemma applyDiffMap_cons (old : List (K × V)) (e : K × Option V) (delta : List (K × Option V)) :
    applyDiffMap old (e :: delta) =
      applyDiffMap (match e.2 with
        | none => delKey old e.1
        | some v => setKey old e.1 v) delta := rfl

lemma getVal_applyDiffMap_not_mem (old : List (K × V)) (delta : List (K × Option V))
    {k : K} (h : k ∉ delta.map Prod.fst) :
    getVal (applyDiffMap old delta) k = getVal old k := by
  induction delta generalizing old with
  | nil => rfl
  | cons e rest ih =>
    simp only [List.map_cons, List.mem_cons, not_or] at h
    rw [applyDiffMap_cons, ih _ h.2]
    rcases e with ⟨k₀, v?⟩
    have hk : k ≠ k₀ := fun hc => h.1 hc
    cases v? with
    | none => exact getVal_delKey_ne _ hk
    | some v => exact getVal_setKey_ne _ _ hk

lemma getVal_applyDiffMap (old : List (K × V)) (delta : List (K × Option V))
    (hnd : (delta.map Prod.fst).Nodup) (k : K) :
    getVal (applyDiffMap old delta) k =
      match getVal delta k with
      | none => getVal old k
      | some none => none
      | some (some v) => some v := by
  induction delta generalizing old with
  | nil => rfl
  | cons e rest ih =>
    simp only [List.map_cons, List.nodup_cons] at hnd
    rcases e with ⟨k₀, v?⟩
    by_cases hek : k₀ = k
    · subst hek
      rw [applyDiffMap_cons,
        getVal_applyDiffMap_not_mem _ _ hnd.1, getVal_cons, if_pos rfl]
      cases v? with
      | none => exact getVal_delKey_self _ _
      | some v => exact getVal_setKey_self _ _ _
    · rw [applyDiffMap_cons, ih _ hnd.2, getVal_cons, if_neg hek]
      cases hr : getVal rest k with
      | none =>
        cases v? with
        | none => exact getVal_delKey_ne _ (Ne.symm hek)
        | some v => exact getVal_setKey_ne _ _ (Ne.symm hek)
      | some w => cases w <;> rfl

lemma getVal_filterPair (m : List (K × V)) (p : K × V → Bool) (f : K × V → W) (k : K)
    (hnd : (m.map Prod.fst).Nodup) :
    getVal ((m.filter p).map fun kv => (kv.1, f kv)) k =
      (getVal m k).bind fun v => if p (k, v) then some (f (k, v)) else none := by
  induction m with
  | nil => rfl
  | cons e rest ih =>
    rcases e with ⟨k₀, v₀⟩
    simp only [List.map_cons, List.nodup_cons] at hnd
    rw [List.filter_cons]
    by_cases hek : k₀ = k
    · subst hek
      have hrest : getVal ((rest.filter p).map fun kv => (kv.1, f kv)) k₀ = none := by
        rw [getVal_eq_none_iff, List.map_map]
        intro hmem
        obtain ⟨kv, hkv, hfst⟩ := List.mem_map.mp hmem
        exact hnd.1 (List.mem_map.mpr ⟨kv, List.mem_of_mem_filter hkv, hfst⟩)
      rw [getVal_cons, if_pos rfl, Option.some_bind]
      cases hp : p (k₀, v₀) with
      | false =>
        rw [if_neg Bool.false_ne_true, if_neg Bool.false_ne_true, hrest]
      | true =>
        rw [if_pos rfl, if_pos rfl, List.map_cons, getVal_cons, if_pos rfl]
    · rw [getVal_cons, if_neg (hek : ¬ (k₀, v₀).1 = k)]
      cases hp : p (k₀, v₀) with
      | false => rw [if_neg Bool.false_ne_true, ih hnd.2]
      | true =>
        rw [if_pos rfl, List.map_cons, getVal_cons,
          if_neg (hek : ¬ ((k₀, v₀).1, f (k₀, v₀)).1 = k), ih hnd.2]

lemma nodupKeys_computeDiffMap [DecidableEq V] (old new : List (K × V))
    (hold : (old.map Prod.fst).Nodup) (hnew : (new.map Prod.fst).Nodup) :
    ((computeDiffMap old new).map Prod.fst).Nodup := by
  rw [computeDiffMap, List.map_append, List.map_map, List.map_map]
  have h1 : (Prod.fst ∘ fun kv : K × V => (kv.1, some kv.2)) = Prod.fst := rfl
  have h2 : (Prod.fst ∘ fun kv : K × V => (kv.1, (none : Option V))) = Prod.fst := rfl
  rw [h1, h2]
  apply List.Nodup.append
  · exact List.Nodup.sublist (List.Sublist.map _ (List.filter_sublist _)) hnew
  · exact List.Nodup.sublist (List.Sublist.map _ (List.filter_sublist _)) hold
  · intro a ha1 ha2
    obtain ⟨kv, hkv, rfl⟩ := List.mem_map.mp ha1
    obtain ⟨kv2, hkv2, heq⟩ := List.mem_map.mp ha2
    have hp2 := List.of_mem_filter hkv2
    rw [decide_eq_true_iff] at hp2
    rw [(heq : kv2.1 = kv.1)] at hp2
    rw [getVal_eq_none_iff] at hp2
    exact hp2 (List.mem_map.mpr ⟨kv, List.mem_of_mem_filter hkv, rfl⟩)

lemma getVal_computeDiffMap [DecidableEq V] (old new : List (K × V))
    (hold : (old.map Prod.fst).Nodup) (hnew : (new.map Prod.fst).Nodup) (k : K) :
    getVal (computeDiffMap old new) k =
      match getVal new k, getVal old k with
      | some v, o => if o = some v then none else some (some v)
      | none, some _ => some none
      | none, none => none := by
  rw [computeDiffMap, getVal_append,
    getVal_filterPair new (fun kv => decide (getVal old kv.1 ≠ some kv.2))
      (fun kv => some kv.2) k hnew,
    getVal_filterPair old (fun kv => decide (getVal new kv.1 = none))
      (fun _ => (none : Option V)) k hold]
  cases hn : getVal new k <;> cases ho : getVal old k
  · simp [hn, ho]
  · simp [hn, ho]
  · simp [hn, ho]
  case some.some v w =>
    by_cases hwv : w = v
    · subst hwv
      simp [hn, ho]
    · simp [hn, ho, hwv, Ne.symm hwv]

/-- C3: for all keyed mappings `old` and `new` (association lists with
pairwise-distinct keys, the model of Python dicts), applying the delta
computed between them reconstructs `new` exactly, where equality of
mappings is Python dict equality, i.e. agreement of lookups at every key:
`applyDiffMap old (computeDiffMap old new)` and `new` agree everywhere.
`computeDiffMap` emits `k ↦ new[k]` for changed or added keys and the
deletion sentinel for removed keys; `applyDiffMap` deletes on the sentinel
and otherwise assigns. -/
theorem c3_delta_apply_inverse {K V : Type} [DecidableEq K] [DecidableEq V]
    (old new : List (K × V)) (hold : (old.map Prod.fst).Nodup)
    (hnew : (new.map Prod.fst).Nodup) (k : K) :
    getVal (applyDiffMap old (computeDiffMap old new)) k = getVal new k := by
  rw [getVal_applyDiffMap _ _ (nodupKeys_computeDiffMap old new hold hnew) k,
    getVal_computeDiffMap old new hold hnew k]
  cases hn : getVal new k <;> cases ho : getVal old k
  · rfl
  · rfl
  · simp
  case some.some v w =>
    by_cases hwv : w = v
    · subst hwv
      simp
    · simp [hwv]

/-- Witness for C3 at `old = [(1,10),(2,20)]`, `new = [(2,25),(3,30)]`
(key 1 deleted, key 2 changed, key 3 added), looked up at key 1. -/
theorem c3_delta_apply_inverse_witness :
    getVal (applyDiffMap [(1, 10), (2, 20)]
        (computeDiffMap [(1, 10), (2, 20)] [(2, 25), (3, 30)])) 1 =
      getVal [(2, 25), (3, 30)] 1 :=
  c3_delta_apply_inverse [(1, 10), (2, 20)] [(2, 25), (3, 30)]
    (by decide) (by decide) 1

end DiffEngine

/-! ### Python values

`compute_diff` dispatches on the runtime type of its two arguments, so the
payload universe is modelled as a small Python-value type.  Mutual
inductives stand in for Python lists and dicts; `Val.null` is Python's
`None`, which doubles as the deletion sentinel and the "no change" return
exactly as in the code. -/

mutual

inductive Val : Type where
  | null : Val
  | num : ℚ → Val
  | str : String → Val
  | list : ValList → Val
  | dict : EntryList → Val
deriving DecidableEq

inductive ValList : Type where
  | nil : ValList
  | cons : Val → ValList → ValList
deriving DecidableEq

inductive EntryList : Type where
  | nil : EntryList
  | cons : String → Val → EntryList → EntryList
deriving DecidableEq

end

/-- Dict lookup on an entry list (first match). -/
def lookupE : EntryList → String → Option Val
  | .nil, _ => none
  | .cons k v rest, key => if k = key then some v else lookupE rest key

/-- Entry-list concatenation. -/
def appendE : EntryList → EntryList → EntryList
  | .nil, b => b
  | .cons k v rest, b => .cons k v (appendE rest b)

/-- First loop of the dict branch of `compute_diff` (server.py lines 29–31):
`for k, v in new.items(): if k not in old or old[k] != v: diff[k] = v`. -/
def changedEntries (old : EntryList) : EntryList → EntryList
  | .nil => .nil
  | .cons k v rest =>
    if lookupE old k = some v then changedEntries old rest
    else .cons k v (changedEntries old rest)

/-- Second loop of the dict branch (server.py lines 32–34):
`for k in old: if k not in new: diff[k] = None`. -/
def deletedEntries (new : EntryList) : EntryList → EntryList
  | .nil => .nil
  | .cons k _ rest =>
    if lookupE new k = none then .cons k .null (deletedEntries new rest)
    else deletedEntries new rest

/-- One `{'index': i, 'value': v}` record of the list branch. -/
def record (i : ℕ) (v : Val) : Val :=
  .dict (.cons "index" (.num i) (.cons "value" v .nil))

/-- The list branch of `compute_diff` (server.py lines 36–41): compare
position by position up to the shorter length emitting records for changed
cells, then emit records for every index of `new` past the common prefix;
a shorter `new` emits nothing for the truncated tail. -/
def listDiff : ValList → ValList → ℕ → ValList
  | .cons o os, .cons n ns, i =>
    if o = n then listDiff os ns (i + 1)
    else .cons (record i n) (listDiff os ns (i + 1))
  | .nil, .cons n ns, i => .cons (record i n) (listDiff .nil ns (i + 1))
  | _, .nil, _ => .nil

/-- `compute_diff` (server.py lines 27–42): dict branch when both arguments
are dicts, list branch when both are lists, otherwise `new` verbatim when
the values differ and Python `None` (here `Val.null`) when they agree. -/
def compute_diff : Val → Val → Val
  | .dict o, .dict n => .dict (appendE (changedEntries o n) (deletedEntries n o))
  | .list o, .list n => .list (listDiff o n 0)
  | o, n => if o = n then .null else n

/-- Embed a Lean list of values as a Python list. -/
def valListOfList : List Val → ValList
  | [] => .nil
  | v :: vs => .cons v (valListOfList vs)

/-- A grid row as a Python list of floats. -/
def rowVal (r : List ℚ) : Val := .list (valListOfList (r.map Val.num))

/-- A grid as a Python list of rows. -/
def gridVal (g : Grid) : Val := .list (valListOfList (g.map rowVal))

/-! ### Delivery engine -/

/-- `exp_backoff` (server.py line 66): `min(RETRY_DELAY * (2**attempt), 10.0)`. -/
def exp_backoff (attempt : ℕ) : ℚ := min (RETRY_DELAY * 2 ^ attempt) 10

/-- Outcome of the retry loop: number of write attempts made, the backoff
delays slept after failed attempts, and whether a write succeeded. -/
structure Delivery where
  attempts : ℕ
  delays : List ℚ
  delivered : Bool
deriving DecidableEq

/-- The retry loop of `handle_client` (server.py lines 91–97), starting at
attempt number `attempt` with `fuel` loop iterations left: try the write,
`break` on success, sleep `exp_backoff(attempt)` on failure.  `outcomes n`
is whether the write of attempt `n` succeeds. -/
def deliverFrom (outcomes : ℕ → Bool) : ℕ → ℕ → Delivery
  | attempt, 0 => ⟨attempt, [], false⟩
  | attempt, fuel + 1 =>
    if outcomes attempt then ⟨attempt + 1, [], true⟩
    else
      let rest := deliverFrom outcomes (attempt + 1) fuel
      ⟨rest.attempts, exp_backoff attempt :: rest.delays, rest.delivered⟩

/-- The full retry loop: `for attempt in range(MAX_RETRIES)`. -/
def deliver (outcomes : ℕ → Bool) : Delivery :=
  deliverFrom outcomes 0 MAX_RETRIES

/-! ### Connection handler -/

/-- A decoded 10-byte request header (server.py lines 74–77). -/
structure Request where
  full_flag : ℕ
  cx : ℤ
  cy : ℤ
  lodByte : ℕ
deriving DecidableEq

/-- `lod = hdr[9] / 255.0` (server.py line 77). -/
def lodOf (b : ℕ) : ℚ := (b : ℚ) / 255

/-- A session key `(cx, cy, lod)` as used in `_last_sent[cid]`. -/
abbrev SessionKey := ℤ × ℤ × ℚ

/-- One client's `_last_sent[cid]` dict. -/
abbrev Session := SessionKey → Option Grid

def emptySession : Session := fun _ => none

/-- server.py lines 85–88: choose the payload.  A delta is computed exactly
when `full_flag == 0` and a prior entry exists; line 88
(`data_to_send = diff if diff is not None else {}`) substitutes the empty
dict when `compute_diff` returned Python `None`. -/
def selectData (full_flag : ℕ) (base : Option Val) (new_data : Val) : Val :=
  match base with
  | some b =>
    if full_flag = 0 then
      if compute_diff b new_data = Val.null then .dict .nil else compute_diff b new_data
    else new_data
  | none => new_data

/-- One iteration of the request loop of `handle_client` (server.py lines
73–98) after the header was read: decode the LOD byte, load and sample the
chunk (`1/lod` raises on a zero lod), pick full or delta payload, run the
delivery retry loop, and update the session entry unconditionally.
`native` is the grid returned by the external `load_chunk(cx, cy)`. -/
def processRequest (session : Session) (native : Grid) (r : Request)
    (outcomes : ℕ → Bool) : Except HandlerErr (Session × Val × Delivery) :=
  let lod := lodOf r.lodByte
  match lodSample native lod with
  | .error e => .error e
  | .ok new_data =>
    let key : SessionKey := (r.cx, r.cy, lod)
    let data_to_send := selectData r.full_flag ((session key).map gridVal) (gridVal new_data)
    let dl := deliver outcomes
    .ok (Function.update session key (some new_data), data_to_send, dl)

/-- How the `try`/`except`/`finally` of `handle_client` ends:
the `while` loop observes the shutdown flag (clean), `readexactly` raises
`IncompleteReadError` which is caught by the `except` clause (clean), or
another exception propagates through the `finally` block (errored). -/
inductive ExitKind where
  | cleanShutdown
  | cleanDisconnect
  | errored (e : HandlerErr)
deriving DecidableEq

/-- The request loop of `handle_client` (server.py lines 72–98):
`shutdown i` is the value of the global `to_shutdown` flag observed at the
top of iteration `i`; `inputs` is the list of complete 10-byte headers the
peer delivers, after which `readexactly` raises `IncompleteReadError`;
`source` is the external `load_chunk`; `outcomesAt i` the per-iteration
write outcomes.  Returns the final session, the payloads handed to the
delivery engine in order, and how the loop ended. -/
def runLoop (shutdown : ℕ → Bool) (source : ℤ → ℤ → Grid) (outcomesAt : ℕ → ℕ → Bool) :
    List Request → Session → ℕ → List Val → Session × List Val × ExitKind
  | [], session, i, sent =>
    if shutdown i then (session, sent.reverse, .cleanShutdown)
    else (session, sent.reverse, .cleanDisconnect)
  | r :: rest, session, i, sent =>
    if shutdown i then (session, sent.reverse, .cleanShutdown)
    else
      match processRequest session (source r.cx r.cy) r (outcomesAt i) with
      | .error e => (session, sent.reverse, .errored e)
      | .ok (s2, p, _) => runLoop shutdown source outcomesAt rest s2 (i + 1) (p :: sent)

/-- `_last_sent` (server.py line 53): a `defaultdict(dict)` keyed by the
connection id, defaulting to an empty session. -/
abbrev GlobalStore := ℕ → Session

/-- What one call of `handle_client` leaves behind: the global store, the
payloads sent, the exit kind, and the resource bookkeeping of the single
`_semaphore.acquire()` before the `try` and the single
`writer.close(); await writer.wait_closed(); _semaphore.release()` in the
`finally` block, which runs on every exit path. -/
structure HandleResult where
  store : GlobalStore
  sent : List Val
  exitKind : ExitKind
  acquired : ℕ
  released : ℕ
  closed : Bool

/-- `handle_client` (server.py lines 70–102).  The `finally` block closes
the writer and releases the semaphore; it never deletes `_last_sent[cid]`,
so the store keeps the session exactly as the loop left it. -/
def handle_client (store : GlobalStore) (cid : ℕ) (shutdown : ℕ → Bool)
    (source : ℤ → ℤ → Grid) (outcomesAt : ℕ → ℕ → Bool) (inputs : List Request) :
    HandleResult :=
  let res := runLoop shutdown source outcomesAt inputs (store cid) 0 []
  { store := Function.update store cid res.1
    sent := res.2.1
    exitKind := res.2.2
    acquired := 1
    released := 1
    closed := true }

/-! ### Admission semaphore -/

/-- `_semaphore = asyncio.Semaphore(MAX_CONCURRENT_CLIENTS)` (server.py
line 55). -/
def semaphoreSize : ℕ := MAX_CONCURRENT_CLIENTS

/-- Reachable states of the admission semaphore, counting the connections
currently holding a slot: an acquire only completes while a slot is free,
a release requires a holder. -/
inductive SemReachable : ℕ → Prop where
  | init : SemReachable 0
  | acquire {n : ℕ} : SemReachable n → n < semaphoreSize → SemReachable (n + 1)
  | release {n : ℕ} : SemReachable n → 0 < n → SemReachable (n - 1)

/-! ### Helper lemmas about the handler -/

/-- When the sampling step succeeds, the request iteration returns normally
with the updated session, the selected payload, and the delivery outcome of
the retry loop — regardless of the write outcomes. -/
lemma processRequest_eq_ok (session : Session) (native : Grid) (r : Request)
    (oc : ℕ → Bool) (g : Grid)
    (h : lodSample native (lodOf r.lodByte) = Except.ok g) :
    processRequest session native r oc =
      Except.ok (Function.update session (r.cx, r.cy, lodOf r.lodByte) (some g),
        selectData r.full_flag
          ((session (r.cx, r.cy, lodOf r.lodByte)).map gridVal) (gridVal g),
        deliver oc) := by
  simp [processRequest, h]

/-- The sampling comprehension raises `IndexError` when some access of the
double stride is out of range. -/
lemma lodSample_eq_indexError (g : Grid) (lod : ℚ) (h1 : lod < 1) (h0 : lod ≠ 0)
    (hguard : ((strideIdx CHUNK_SIZE (strideFactor lod)).all fun y =>
        decide (y * strideFactor lod < g.length) &&
        (strideIdx CHUNK_SIZE (strideFactor lod)).all fun x =>
          decide (x * strideFactor lod <
            (g.getD (y * strideFactor lod) []).length)) = false) :
    lodSample g lod = Except.error HandlerErr.indexError := by
  rw [lodSample, if_pos h1, if_neg h0]
  exact if_neg (fun hc => Bool.false_ne_true (hguard ▸ hc))

/-- C1 (code divergence): the claim says the sampler succeeds on every
native `CHUNK_SIZE × CHUNK_SIZE` grid for every `0 < lod < 1`, returning
single-stride cells `(i*factor, j*factor)`.  In fact server.py line 82
indexes `new_data[y*factor][x*factor]` with `y, x` already multiples of
`factor` (a double stride), so for every stride factor 2–127 (LOD bytes
2–127) some access lands past row/column 127 of the native grid and the
comprehension raises an uncaught `IndexError`.  At LOD byte 64 the stride
factor is 3 and the sampler fails on every native grid: row index
`45 * 3 = 135` is accessed and is out of range. -/
theorem c1_lod_sampler_index_error (g : Grid) (hg : g.length = CHUNK_SIZE)
    (hrow : ∀ r ∈ g, r.length = CHUNK_SIZE) :
    strideFactor (lodOf 64) = 3 ∧
    lodSample g (lodOf 64) = Except.error HandlerErr.indexError := by
  have hfac : strideFactor (lodOf 64) = 3 := by
    rw [strideFactor, show ⌊1 / lodOf 64⌋ = 3 by norm_num [lodOf]]
    rfl
  refine ⟨hfac, ?_⟩
  apply lodSample_eq_indexError g (lodOf 64) (by norm_num [lodOf]) (by norm_num [lodOf])
  rw [hfac, List.all_eq_false]
  refine ⟨45, by decide, ?_⟩
  simp [hg, CHUNK_SIZE]

/-- Witness for C1's failing input: the native all-zero grid with LOD
byte 64. -/
theorem c1_lod_sampler_index_error_witness :
    strideFactor (lodOf 64) = 3 ∧
    lodSample (List.replicate 128 (List.replicate 128 (0 : ℚ))) (lodOf 64) =
      Except.error HandlerErr.indexError :=
  c1_lod_sampler_index_error (List.replicate 128 (List.replicate 128 (0 : ℚ)))
    (by simp [CHUNK_SIZE])
    (by intro r hr; rw [List.eq_of_mem_replicate hr]; simp [CHUNK_SIZE])

/-- C2: after the handler processes any request — whatever payload shape
was chosen and whether or not delivery succeeded — the session entry for
the key `(cx, cy, lod)` equals the grid just computed by the LOD sampler. -/
theorem c2_session_tracks_sampler (session : Session) (native : Grid) (r : Request)
    (outcomes : ℕ → Bool) (s2 : Session) (p : Val) (d : Delivery) (g : Grid)
    (hsample : lodSample native (lodOf r.lodByte) = Except.ok g)
    (hrun : processRequest session native r outcomes = Except.ok (s2, p, d)) :
    s2 (r.cx, r.cy, lodOf r.lodByte) = some g := by
  simp only [processRequest, hsample] at hrun
  rw [Except.ok.injEq, Prod.mk.injEq] at hrun
  obtain ⟨hs, -⟩ := hrun
  rw [← hs, Function.update_same]

/-- Witness for C2: a full-resolution request against a one-cell source
grid leaves that grid in the session under the derived key. -/
theorem c2_session_tracks_sampler_witness :
    Function.update emptySession ((0 : ℤ), (0 : ℤ), lodOf 255) (some [[(5 : ℚ)]])
      ((0 : ℤ), (0 : ℤ), lodOf 255) = some [[(5 : ℚ)]] := by
  have hsample : lodSample [[(5 : ℚ)]] (lodOf (255 : ℕ)) = Except.ok [[(5 : ℚ)]] := by
    rw [lodSample, if_neg]
    norm_num [lodOf]
  refine c2_session_tracks_sampler emptySession [[(5 : ℚ)]] ⟨1, 0, 0, 255⟩ (fun _ => true)
    (Function.update emptySession ((0 : ℤ), (0 : ℤ), lodOf 255) (some [[(5 : ℚ)]]))
    (selectData 1 ((emptySession ((0 : ℤ), (0 : ℤ), lodOf 255)).map gridVal)
      (gridVal [[(5 : ℚ)]]))
    (deliver fun _ => true) [[(5 : ℚ)]] hsample ?_
  simp only [processRequest, hsample]

/-- C10: the handler compares `full_flag` only against 0, so every nonzero
flag byte forces the full sampled grid; a delta is computed exactly when
`full_flag = 0` and a prior session entry exists; and when `compute_diff`
returns Python `None`, the empty dict is transmitted in its place.  The
last conjunct ties the payload of `processRequest` to this selection. -/
theorem c10_payload_selection :
    (∀ (flag : ℕ) (b g : Val), flag ≠ 0 → selectData flag (some b) g = g) ∧
    (∀ (flag : ℕ) (g : Val), selectData flag none g = g) ∧
    (∀ b g : Val, selectData 0 (some b) g =
      if compute_diff b g = Val.null then Val.dict .nil else compute_diff b g) ∧
    (∀ (session : Session) (native : Grid) (r : Request) (oc : ℕ → Bool)
        (s2 : Session) (p : Val) (d : Delivery) (g : Grid),
      lodSample native (lodOf r.lodByte) = Except.ok g →
      processRequest session native r oc = Except.ok (s2, p, d) →
      p = selectData r.full_flag
        ((session (r.cx, r.cy, lodOf r.lodByte)).map gridVal) (gridVal g)) := by
  refine ⟨?_, ?_, ?_, ?_⟩
  · intro flag b g h
    simp [selectData, h]
  · intro flag g
    rfl
  · intro b g
    rfl
  · intro session native r oc s2 p d g hsample hrun
    simp only [processRequest, hsample] at hrun
    rw [Except.ok.injEq, Prod.mk.injEq, Prod.mk.injEq] at hrun
    obtain ⟨-, hp, -⟩ := hrun
    exact hp.symm

/-- Witness for C10: flag byte 2 (not just 1) forces the full grid, and a
flag-0 request with a prior entry goes through the diff selection. -/
theorem c10_payload_selection_witness :
    selectData 2 (some (gridVal [[(1 : ℚ)]])) (gridVal [[(2 : ℚ)]]) = gridVal [[(2 : ℚ)]] ∧
    selectData 0 (some (gridVal [[(1 : ℚ)]])) (gridVal [[(2 : ℚ)]]) =
      (if compute_diff (gridVal [[(1 : ℚ)]]) (gridVal [[(2 : ℚ)]]) = Val.null
        then Val.dict .nil else compute_diff (gridVal [[(1 : ℚ)]]) (gridVal [[(2 : ℚ)]])) :=
  ⟨c10_payload_selection.1 2 (gridVal [[(1 : ℚ)]]) (gridVal [[(2 : ℚ)]]) (by decide),
   c10_payload_selection.2.2.1 (gridVal [[(1 : ℚ)]]) (gridVal [[(2 : ℚ)]])⟩

/-- C5 (code divergence): a request whose LOD byte is 0 yields `lod = 0`,
and the handler evaluates `1/lod` anyway — Python raises an uncaught
`ZeroDivisionError` — instead of failing with the spec's `InvalidRequest`;
there is no defensive clamp before the division. -/
theorem c5_zero_lod_divides (session : Session) (native : Grid) (oc : ℕ → Bool)
    (r : Request) (h : r.lodByte = 0) :
    processRequest session native r oc = Except.error HandlerErr.zeroDivision ∧
    HandlerErr.zeroDivision ≠ HandlerErr.invalidRequest := by
  constructor
  · have hlod : lodOf r.lodByte = 0 := by
      rw [h, lodOf]
      norm_num
    have hs : lodSample native (lodOf r.lodByte) = Except.error HandlerErr.zeroDivision := by
      rw [lodSample, hlod, if_pos (by norm_num), if_pos rfl]
    simp [processRequest, hs]
  · decide

/-- Witness for C5: the concrete all-zero header. -/
theorem c5_zero_lod_divides_witness :
    processRequest emptySession [[(1 : ℚ)]] ⟨0, 0, 0, 0⟩ (fun _ => true) =
      Except.error HandlerErr.zeroDivision ∧
    HandlerErr.zeroDivision ≠ HandlerErr.invalidRequest :=
  c5_zero_lod_divides emptySession [[(1 : ℚ)]] (fun _ => true) ⟨0, 0, 0, 0⟩ rfl

/-! ### Delivery characterization -/

lemma deliverFrom_attempts_le (oc : ℕ → Bool) :
    ∀ fuel a, (deliverFrom oc a fuel).attempts ≤ a + fuel := by
  intro fuel
  induction fuel with
  | zero =>
    intro a
    simp [deliverFrom]
  | succ n ih =>
    intro a
    rw [deliverFrom]
    by_cases h : oc a
    · rw [if_pos h]
      show a + 1 ≤ a + (n + 1)
      omega
    · rw [if_neg h]
      show (deliverFrom oc (a + 1) n).attempts ≤ a + (n + 1)
      have := ih (a + 1)
      omega

lemma deliver_success (oc : ℕ → Bool) (k : ℕ) (hk : k < MAX_RETRIES)
    (hsucc : oc k = true) (hfail : ∀ j, j < k → oc j = false) :
    deliver oc = ⟨k + 1, (List.range k).map exp_backoff, true⟩ := by
  rw [MAX_RETRIES] at hk
  interval_cases k
  · simp [deliver, MAX_RETRIES, deliverFrom, hsucc]
  · have h0 := hfail 0 (by norm_num)
    simp [deliver, MAX_RETRIES, deliverFrom, h0, hsucc, List.range_succ]
  · have h0 := hfail 0 (by norm_num)
    have h1 := hfail 1 (by norm_num)
    simp [deliver, MAX_RETRIES, deliverFrom, h0, h1, hsucc, List.range_succ]

lemma deliver_all_fail (oc : ℕ → Bool) (h : ∀ j, j < MAX_RETRIES → oc j = false) :
    deliver oc = ⟨MAX_RETRIES, (List.range MAX_RETRIES).map exp_backoff, false⟩ := by
  have h0 := h 0 (by norm_num [MAX_RETRIES])
  have h1 := h 1 (by norm_num [MAX_RETRIES])
  have h2 := h 2 (by norm_num [MAX_RETRIES])
  simp [deliver, MAX_RETRIES, deliverFrom, h0, h1, h2, List.range_succ]

/-- C6: the delivery engine writes at most `MAX_RETRIES = 3` times; the
delay slept after failed attempt `n` is exactly
`min(RETRY_DELAY * 2^n, 10.0)`; a successful write ends the attempts; and
exhausting every attempt raises nothing — the handler still returns
normally for any write outcomes. -/
theorem c6_delivery_retries (outcomes : ℕ → Bool) :
    (deliver outcomes).attempts ≤ MAX_RETRIES ∧
    (∀ n, exp_backoff n = min (RETRY_DELAY * 2 ^ n) 10) ∧
    (∀ k, k < MAX_RETRIES → outcomes k = true → (∀ j, j < k → outcomes j = false) →
      deliver outcomes = ⟨k + 1, (List.range k).map exp_backoff, true⟩) ∧
    ((∀ j, j < MAX_RETRIES → outcomes j = false) →
      deliver outcomes = ⟨MAX_RETRIES, (List.range MAX_RETRIES).map exp_backoff, false⟩) ∧
    (∀ (session : Session) (native : Grid) (r : Request) (g : Grid),
      lodSample native (lodOf r.lodByte) = Except.ok g →
      processRequest session native r outcomes =
        Except.ok (Function.update session (r.cx, r.cy, lodOf r.lodByte) (some g),
          selectData r.full_flag
            ((session (r.cx, r.cy, lodOf r.lodByte)).map gridVal) (gridVal g),
          deliver outcomes)) := by
  refine ⟨?_, fun n => rfl, deliver_success outcomes, deliver_all_fail outcomes, ?_⟩
  · have := deliverFrom_attempts_le outcomes MAX_RETRIES 0
    rw [deliver]
    omega
  · intro session native r g h
    exact processRequest_eq_ok session native r outcomes g h

/-- Witness for C6: all writes fail — three attempts, three backoffs, no
exception out of the handler. -/
theorem c6_delivery_retries_witness :
    deliver (fun _ => false) =
      ⟨MAX_RETRIES, (List.range MAX_RETRIES).map exp_backoff, false⟩ ∧
    processRequest emptySession [[(1 : ℚ)]] ⟨1, 0, 0, 255⟩ (fun _ => false) =
      Except.ok (Function.update emptySession ((0 : ℤ), (0 : ℤ), lodOf 255) (some [[(1 : ℚ)]]),
        selectData 1 ((emptySession ((0 : ℤ), (0 : ℤ), lodOf 255)).map gridVal)
          (gridVal [[(1 : ℚ)]]),
        deliver (fun _ => false)) := by
  have hsample : lodSample [[(1 : ℚ)]] (lodOf (255 : ℕ)) = Except.ok [[(1 : ℚ)]] := by
    rw [lodSample, if_neg]
    norm_num [lodOf]
  exact ⟨(c6_delivery_retries (fun _ => false)).2.2.2.1 (fun j _ => rfl),
    (c6_delivery_retries (fun _ => false)).2.2.2.2 emptySession [[(1 : ℚ)]] ⟨1, 0, 0, 255⟩
      [[(1 : ℚ)]] hsample⟩

/-- C7: the admission semaphore is sized to the global connection limit 16;
a connection handler acquires exactly one slot and releases exactly one
slot on every exit path (and closes the writer), and no reachable
semaphore state exceeds 16 holders. -/
theorem c7_admission_control :
    semaphoreSize = 16 ∧
    (∀ (store : GlobalStore) (cid : ℕ) (shutdown : ℕ → Bool) (source : ℤ → ℤ → Grid)
        (outcomesAt : ℕ → ℕ → Bool) (inputs : List Request),
      (handle_client store cid shutdown source outcomesAt inputs).acquired = 1 ∧
      (handle_client store cid shutdown source outcomesAt inputs).released = 1 ∧
      (handle_client store cid shutdown source outcomesAt inputs).closed = true) ∧
    (∀ n, SemReachable n → n ≤ semaphoreSize) := by
  refine ⟨rfl, fun _ _ _ _ _ _ => ⟨rfl, rfl, rfl⟩, ?_⟩
  intro n h
  induction h with
  | init => norm_num
  | acquire _ hlt _ => omega
  | release _ _ ih => omega

/-- Witness for C7: a concrete connection run and a reachable one-holder
semaphore state. -/
theorem c7_admission_control_witness :
    (handle_client (fun _ => emptySession) 0 (fun _ => false) (fun _ _ => [[(1 : ℚ)]])
        (fun _ _ => true) []).acquired = 1 ∧
    1 ≤ semaphoreSize :=
  ⟨(c7_admission_control.2.1 (fun _ => emptySession) 0 (fun _ => false)
      (fun _ _ => [[(1 : ℚ)]]) (fun _ _ => true) []).1,
   c7_admission_control.2.2 1 (SemReachable.acquire SemReachable.init
      (by norm_num [semaphoreSize, MAX_CONCURRENT_CLIENTS]))⟩

lemma runLoop_clean (shutdown : ℕ → Bool) (source : ℤ → ℤ → Grid)
    (outcomesAt : ℕ → ℕ → Bool) (hshut : ∀ i, shutdown i = false) :
    ∀ inputs : List Request,
    (∀ r ∈ inputs, ∃ g, lodSample (source r.cx r.cy) (lodOf r.lodByte) = Except.ok g) →
    ∀ session i sent,
      (runLoop shutdown source outcomesAt inputs session i sent).2.2 =
        ExitKind.cleanDisconnect := by
  intro inputs
  induction inputs with
  | nil =>
    intro _ session i sent
    rw [runLoop, if_neg (by simp [hshut i])]
  | cons r rest ih =>
    intro hvalid session i sent
    rw [runLoop, if_neg (by simp [hshut i])]
    obtain ⟨g, hg⟩ := hvalid r (List.mem_cons_self r rest)
    rw [processRequest_eq_ok session (source r.cx r.cy) r (outcomesAt i) g hg]
    exact ih (fun r2 hr2 => hvalid r2 (List.mem_cons_of_mem _ hr2)) _ (i + 1) _

/-- C8: a peer that closes the stream or delivers fewer than the 10 header
bytes while the handler awaits a request header — i.e. after every earlier
request of the connection was processed without an exception — causes a
normal disconnect: the `IncompleteReadError` is caught, the handler exits
in the clean state, no exception propagates, and the admission slot is
released. -/
theorem c8_short_header_clean_disconnect (store : GlobalStore) (cid : ℕ)
    (shutdown : ℕ → Bool) (source : ℤ → ℤ → Grid) (outcomesAt : ℕ → ℕ → Bool)
    (inputs : List Request) (hshut : ∀ i, shutdown i = false)
    (hvalid : ∀ r ∈ inputs, ∃ g, lodSample (source r.cx r.cy) (lodOf r.lodByte) =
      Except.ok g) :
    (handle_client store cid shutdown source outcomesAt inputs).exitKind =
      ExitKind.cleanDisconnect ∧
    (handle_client store cid shutdown source outcomesAt inputs).released = 1 ∧
    (handle_client store cid shutdown source outcomesAt inputs).closed = true :=
  ⟨runLoop_clean shutdown source outcomesAt hshut inputs hvalid (store cid) 0 [], rfl, rfl⟩

/-- Witness for C8: the peer sends nothing at all (short read on the very
first header). -/
theorem c8_short_header_clean_disconnect_witness :
    (handle_client (fun _ => emptySession) 0 (fun _ => false) (fun _ _ => [[(1 : ℚ)]])
        (fun _ _ => true) []).exitKind = ExitKind.cleanDisconnect ∧
    (handle_client (fun _ => emptySession) 0 (fun _ => false) (fun _ _ => [[(1 : ℚ)]])
        (fun _ _ => true) []).released = 1 ∧
    (handle_client (fun _ => emptySession) 0 (fun _ => false) (fun _ _ => [[(1 : ℚ)]])
        (fun _ _ => true) []).closed = true :=
  c8_short_header_clean_disconnect (fun _ => emptySession) 0 (fun _ => false)
    (fun _ _ => [[(1 : ℚ)]]) (fun _ _ => true) [] (fun _ => rfl) (by simp)

/-- C9 counterexample: a connection that processes one request and then
disconnects leaves its session entry in the global `_last_sent` store after
the handler terminates — refuting "no Session entries for that connection
remain in server state". -/
theorem c9_counterexample_entry_remains :
    (handle_client (fun _ => emptySession) 0 (fun _ => false) (fun _ _ => [[(5 : ℚ)]])
        (fun _ _ => true) [⟨1, 0, 0, 255⟩]).store 0 ((0 : ℤ), (0 : ℤ), lodOf 255) =
      some [[(5 : ℚ)]] := by
  have hsample : lodSample [[(5 : ℚ)]] (lodOf (255 : ℕ)) = Except.ok [[(5 : ℚ)]] := by
    rw [lodSample, if_neg]
    norm_num [lodOf]
  simp only [handle_client, runLoop, processRequest, hsample]
  simp [Function.update_same]

/-- C9 amended: a connection's session is NOT destroyed when the
connection closes — the `finally` block never deletes `_last_sent[cid]`,
so after `handle_client` returns the global store still maps the
connection id to the session exactly as the request loop left it, and any
processed request's entry persists in server state. -/
theorem c9_amended_sessions_persist (store : GlobalStore) (cid : ℕ)
    (shutdown : ℕ → Bool) (source : ℤ → ℤ → Grid) (outcomesAt : ℕ → ℕ → Bool)
    (inputs : List Request) :
    (handle_client store cid shutdown source outcomesAt inputs).store cid =
      (runLoop shutdown source outcomesAt inputs (store cid) 0 []).1 ∧
    (∀ (r : Request) (g : Grid), shutdown 0 = false →
      lodSample (source r.cx r.cy) (lodOf r.lodByte) = Except.ok g →
      (handle_client store cid shutdown source outcomesAt [r]).store cid
        (r.cx, r.cy, lodOf r.lodByte) = some g) := by
  constructor
  · show Function.update store cid _ cid = _
    rw [Function.update_same]
  · intro r g hsh hg
    show Function.update store cid
      (runLoop shutdown source outcomesAt [r] (store cid) 0 []).1 cid
        (r.cx, r.cy, lodOf r.lodByte) = some g
    rw [Function.update_same, runLoop, if_neg (by simp [hsh])]
    simp only [processRequest, hg]
    rw [runLoop]
    by_cases h1 : shutdown 1
    · rw [if_pos h1]
      exact Function.update_same _ _ _
    · rw [if_neg h1]
      exact Function.update_same _ _ _

/-- Witness for the amended C9: a one-request connection whose entry is
still present, with its sampled grid, after the handler has terminated. -/
theorem c9_amended_sessions_persist_witness :
    (handle_client (fun _ => emptySession) 3 (fun _ => false) (fun _ _ => [[(9 : ℚ)]])
        (fun _ _ => true) [⟨1, 2, 5, 255⟩]).store 3 ((2 : ℤ), (5 : ℤ), lodOf 255) =
      some [[(9 : ℚ)]] := by
  have hsample : lodSample [[(9 : ℚ)]] (lodOf (255 : ℕ)) = Except.ok [[(9 : ℚ)]] := by
    rw [lodSample, if_neg]
    norm_num [lodOf]
  exact (c9_amended_sessions_persist (fun _ => emptySession) 3 (fun _ => false)
    (fun _ _ => [[(9 : ℚ)]]) (fun _ _ => true) [⟨1, 2, 5, 255⟩]).2
    ⟨1, 2, 5, 255⟩ [[(9 : ℚ)]] rfl hsample

/-! ### Framer: frame boundary detection -/

/-- Modelled from the spec: `find_boundary` is code of this repository that
is absent from `src/` (the tests import it from the server module).  Spec
§4.3: given an accumulating receive buffer, return the offset immediately
past a complete frame if the first 4 bytes (big-endian length prefix) plus
the declared length are fully present, else the sentinel `-1`; buffers
shorter than 4 bytes, and buffers whose declared length exceeds the
available trailing bytes, are incomplete. -/
def find_boundary (buf : List ℕ) : ℤ :=
  if buf.length < 4 then -1
  else
    let L := buf.getD 0 0 * 16777216 + buf.getD 1 0 * 65536 + buf.getD 2 0 * 256 + buf.getD 3 0
    if buf.length - 4 < L then -1 else 4 + (L : ℤ)

/-- The 4-byte big-endian declared payload length of a buffer. -/
def declaredLen (buf : List ℕ) : ℕ :=
  buf.getD 0 0 * 16777216 + buf.getD 1 0 * 65536 + buf.getD 2 0 * 256 + buf.getD 3 0

/-- C4: `find_boundary` returns the incomplete sentinel `-1` for every
buffer shorter than 4 bytes and for every buffer whose declared big-endian
length exceeds the available trailing bytes; for every buffer containing a
complete frame it returns exactly `4 + declared length`. -/
theorem c4_frame_boundary (buf : List ℕ) :
    (buf.length < 4 → find_boundary buf = -1) ∧
    (4 ≤ buf.length → buf.length - 4 < declaredLen buf → find_boundary buf = -1) ∧
    (4 ≤ buf.length → declaredLen buf ≤ buf.length - 4 →
      find_boundary buf = 4 + (declaredLen buf : ℤ)) := by
  refine ⟨?_, ?_, ?_⟩
  · intro h
    rw [find_boundary, if_pos h]
  · intro h4 hshort
    rw [find_boundary, if_neg (by omega)]
    exact if_pos hshort
  · intro h4 hfit
    rw [find_boundary, if_neg (by omega)]
    rw [declaredLen] at hfit
    exact if_neg (by omega)

/-- Witness for C4: the buffer `[0,0,0,2, 104,105]` (a 2-byte payload
exactly present) has its boundary at 6; a 1-byte buffer is incomplete. -/
theorem c4_frame_boundary_witness :
    find_boundary [0, 0, 0, 2, 104, 105] = 4 + (declaredLen [0, 0, 0, 2, 104, 105] : ℤ) ∧
    find_boundary [0] = -1 :=
  ⟨(c4_frame_boundary [0, 0, 0, 2, 104, 105]).2.2 (by norm_num) (by norm_num [declaredLen]),
   (c4_frame_boundary [0]).1 (by norm_num)⟩

end WorldSim
